import Mathlib

/-
Verification of the checkpoint-archive rewriter
(src/scripts/edit_checkpoint/src/main.rs).

The development shallowly embeds the Rust program:
- a JSON value type mirroring serde_json::Value (numbers are modelled as
  integers; non-integer numbers behave here like the other scalar kinds,
  for which both as_u64 and as_str return none, which is how the program
  treats them);
- the three content patchers (patch_files_img_json together with
  is_specific_addr, patch_network_status, patch_config_dump) as pure
  functions over that type;
- the streaming tar rewriter (run) over a list of entries, with the
  external collaborators (the crit decode/encode subprocesses, serde
  parsing and serialization of entry bytes, and the tar header checksum
  of the tar crate) abstracted into an Externals record of functions.
-/

set_option autoImplicit false

/-- JSON values as produced by serde_json, with numbers restricted to
integers (the only numeric payloads the program inspects). Objects are
association lists with the key order of the document; serde keeps keys
unique, and all lookups below return the first binding. -/
inductive Json where
  | null : Json
  | bool : Bool → Json
  | num : Int → Json
  | str : String → Json
  | arr : List Json → Json
  | obj : List (String × Json) → Json

namespace Json

/-- First binding of a key in an association list (serde map lookup). -/
def lookupField : List (String × Json) → String → Option Json
  | [], _ => none
  | (k, v) :: rest, key => if k = key then some v else lookupField rest key

/-- serde_json Value::get for a string index: none on non-objects. -/
def getField : Json → String → Option Json
  | obj fields, key => lookupField fields key
  | _, _ => none

/-- Replace the first binding of a key, or append a new binding
(serde map insertion keeps the existing position of a present key). -/
def setFields : List (String × Json) → String → Json → List (String × Json)
  | [], key, v => [(key, v)]
  | (k, w) :: rest, key, v =>
    if k = key then (key, v) :: rest else (k, w) :: setFields rest key v

/-- serde_json index-assignment on an object. The program only assigns
into values it has already observed to be objects, so the behaviour on
other values is never exercised; we leave them unchanged. -/
def setField : Json → String → Json → Json
  | obj fields, key, v => obj (setFields fields key v)
  | j, _, _ => j

/-- serde_json Value::as_str. -/
def asStr : Json → Option String
  | str s => some s
  | _ => none

/-- serde_json Value::as_u64: integers in the u64 range only. -/
def asU64 : Json → Option Nat
  | num n => if 0 ≤ n ∧ n < 2 ^ 64 then some n.toNat else none
  | _ => none

/-- serde_json Value::as_array. -/
def asArray : Json → Option (List Json)
  | arr xs => some xs
  | _ => none

/-- serde_json Value::is_number. -/
def isNumber : Json → Bool
  | num _ => true
  | _ => false

theorem lookupField_setFields_self (fields : List (String × Json)) (key : String) (v : Json) :
    lookupField (setFields fields key v) key = some v := by
  induction fields with
  | nil => simp [setFields, lookupField]
  | cons p rest ih =>
    by_cases h : p.1 = key
    · simp [setFields, lookupField, h]
    · simp [setFields, lookupField, h, ih]

theorem lookupField_setFields_ne (fields : List (String × Json)) (key key2 : String) (v : Json)
    (h : key ≠ key2) :
    lookupField (setFields fields key v) key2 = lookupField fields key2 := by
  induction fields with
  | nil => simp [setFields, lookupField, h]
  | cons p rest ih =>
    by_cases hk : p.1 = key
    · simp [setFields, lookupField, hk, h, if_neg (Ne.symm h)]
    · simp [setFields, lookupField, hk, ih]

theorem setFields_lookupField_self (fields : List (String × Json)) (key : String) (v : Json)
    (h : lookupField fields key = some v) :
    setFields fields key v = fields := by
  induction fields with
  | nil => simp [lookupField] at h
  | cons p rest ih =>
    obtain ⟨k, w⟩ := p
    by_cases hk : k = key
    · subst hk
      simp [lookupField] at h
      simp [setFields, h]
    · simp [lookupField, hk] at h
      simp [setFields, hk, ih h]

theorem getField_obj (d : Json) (key : String) (w : Json) (h : getField d key = some w) :
    ∃ fields, d = obj fields := by
  cases d <;> simp [getField] at h <;> exact ⟨_, rfl⟩

theorem getField_setField_self (d : Json) (key : String) (v w : Json)
    (h : getField d key = some w) :
    getField (setField d key v) key = some v := by
  obtain ⟨fields, rfl⟩ := getField_obj d key w h
  simp [setField, getField, lookupField_setFields_self]

theorem getField_setField_ne (d : Json) (key key2 : String) (v : Json) (h : key ≠ key2) :
    getField (setField d key v) key2 = getField d key2 := by
  cases d <;> simp [setField, getField]
  exact lookupField_setFields_ne _ _ _ _ h

theorem setField_getField_self (d : Json) (key : String) (v : Json)
    (h : getField d key = some v) :
    setField d key v = d := by
  obtain ⟨fields, rfl⟩ := getField_obj d key v h
  simp [getField] at h
  simp [setField, setFields_lookupField_self _ _ _ h]

end Json

/-- The closure tested by is_specific_addr on one element of a src_addr
array: numeric elements are specific when nonzero; textual elements when
nonempty and none of the wildcard spellings; everything else is not
specific. -/
def specificElem (a : Json) : Bool :=
  match a.asU64 with
  | some n => n != 0
  | none =>
    match a.asStr with
    | some s => s != "" && s != "0.0.0.0" && s != "::" && s != "0"
    | none => false

/-- Embeds is_specific_addr: whether a src_addr array contains a specific
(non-wildcard) address. -/
def is_specific_addr (addrs : List Json) : Bool :=
  addrs.any specificElem

/-- One iteration of the entry loop of patch_files_img_json: returns the
(possibly rewritten) record together with whether it was rewritten. The
loop skips (continue) any record failing one of the guards, which here
is the else branch of each test. -/
def patchRecord (entry : Json) : Json × Bool :=
  if (entry.getField "type").bind Json.asStr = some "INETSK" then
    match entry.getField "isk" with
    | none => (entry, false)
    | some isk =>
      let family_str := ((isk.getField "family").bind Json.asStr).getD ""
      let family_num := ((isk.getField "family").bind Json.asU64).getD 0
      if family_str = "AF_INET" ∨ family_str = "INET" ∨ family_num = 2 then
        match (isk.getField "src_addr").bind Json.asArray with
        | none => (entry, false)
        | some addrs =>
          if is_specific_addr addrs then
            let was_integer := addrs.head?.elim true Json.isNumber
            let repl :=
              if was_integer then Json.arr [Json.num 0] else Json.arr [Json.str "0.0.0.0"]
            (entry.setField "isk" (isk.setField "src_addr" repl), true)
          else (entry, false)
      else (entry, false)
  else (entry, false)

/-- Embeds patch_files_img_json: rewrite the src_addr of every IPv4
INETSK record bound to a specific address; new_addr is deliberately
ignored (the program always wildcards to 0.0.0.0). Returns the mutated
document and whether any change was made. -/
def patch_files_img_json (data : Json) (new_addr : String) : Json × Bool :=
  match (data.getField "entries").bind Json.asArray with
  | none => (data, false)
  | some es =>
    (data.setField "entries" (Json.arr (es.map fun e => (patchRecord e).1)),
      es.any fun e => (patchRecord e).2)

/-- The count the program reports: how many records the loop rewrote
(the loop increments its counter exactly when it sets updated). -/
def patch_files_img_count (data : Json) : Nat :=
  match (data.getField "entries").bind Json.asArray with
  | none => 0
  | some es => (es.filter fun e => (patchRecord e).2).length

example :
    patchRecord (Json.obj [("type", Json.str "INETSK"),
      ("isk", Json.obj [("family", Json.str "AF_INET"),
        ("src_addr", Json.arr [Json.num 167772165])])]) =
    (Json.obj [("type", Json.str "INETSK"),
      ("isk", Json.obj [("family", Json.str "AF_INET"),
        ("src_addr", Json.arr [Json.num 0])])], true) := by rfl

example :
    patchRecord (Json.obj [("type", Json.str "INETSK"),
      ("isk", Json.obj [("family", Json.str "AF_INET"),
        ("src_addr", Json.arr [Json.str "0.0.0.0"])])]) =
    (Json.obj [("type", Json.str "INETSK"),
      ("isk", Json.obj [("family", Json.str "AF_INET"),
        ("src_addr", Json.arr [Json.str "0.0.0.0"])])], false) := by rfl

example :
    patchRecord (Json.obj [("type", Json.str "INETSK"),
      ("isk", Json.obj [("family", Json.num 2),
        ("src_addr", Json.arr [Json.str "10.0.0.5"])])]) =
    (Json.obj [("type", Json.str "INETSK"),
      ("isk", Json.obj [("family", Json.num 2),
        ("src_addr", Json.arr [Json.str "0.0.0.0"])])], true) := by rfl

/-- Split a character list at every occurrence of a separator character,
keeping empty segments, as the split method of Rust str does for a char
pattern: n separators yield n + 1 segments. -/
def splitOnChar (sep : Char) : List Char → List (List Char)
  | [] => [[]]
  | c :: rest =>
    let r := splitOnChar sep rest
    if c = sep then [] :: r
    else
      match r with
      | [] => [[c]]
      | g :: gs => (c :: g) :: gs

/-- The segment selection old.split(sep).nth(1).unwrap_or(default) used by
patch_network_status for the routing-prefix length. -/
def nthSegment (sep : Char) (s : String) (dflt : String) : String :=
  (((splitOnChar sep s.data).map String.mk).get? 1).getD dflt

example : nthSegment (Char.ofNat 47) "192.168.12.2/24" "24" = "24" := by rfl
example : nthSegment (Char.ofNat 47) "192.168.12.2" "24" = "24" := by rfl
example : nthSegment (Char.ofNat 47) "10.0.0.1/16/x" "24" = "16" := by rfl

/-- One address record of patch_network_status: rebuild the combined
address field from new_addr and the existing routing-prefix length
(defaulting to 24 when the field has no separator). -/
def patchIp (new_addr : String) (ip : Json) : Json :=
  match ip.getField "address" with
  | none => ip
  | some addr =>
    let old := (Json.asStr addr).getD ""
    let pfx := nthSegment (Char.ofNat 47) old "24"
    ip.setField "address" (Json.str (new_addr ++ "/" ++ pfx))

/-- One interface record of patch_network_status: rewrite every element
of its ips array. -/
def patchIface (new_addr : String) (iface : Json) : Json :=
  match (iface.getField "ips").bind Json.asArray with
  | none => iface
  | some ips => iface.setField "ips" (Json.arr (ips.map (patchIp new_addr)))

/-- Embeds patch_network_status at the document level (the byte-level
wrapper, serde parse and pretty serialization, lives in processEntry):
rewrite the address of every address record of every interface record;
a non-array document is passed through untouched. -/
def patch_network_status (data : Json) (new_addr : String) : Json :=
  match data with
  | Json.arr xs => Json.arr (xs.map (patchIface new_addr))
  | d => d

/-- The createCommand scan of patch_config_dump, carrying the element the
scan is currently looking at: when it equals the flag token, the next
element is overwritten with new_addr before the scan moves onto it. -/
def patchCmdGo (new_addr : String) : Json → List Json → List Json
  | x, [] => [x]
  | x, y :: rest =>
    if x.asStr = some "--ip" then x :: patchCmdGo new_addr (Json.str new_addr) rest
    else x :: patchCmdGo new_addr y rest

/-- The in-place while loop over the createCommand array of
patch_config_dump, as a function of the array. -/
def patchCmdList (new_addr : String) : List Json → List Json
  | [] => []
  | x :: rest => patchCmdGo new_addr x rest

/-- Embeds patch_config_dump at the document level: overwrite a present
staticIP field with new_addr, then overwrite every element the
createCommand scan finds right after a flag token. Missing fields are
no-ops. -/
def patch_config_dump (data : Json) (new_addr : String) : Json :=
  let d1 :=
    if (data.getField "staticIP").isSome then data.setField "staticIP" (Json.str new_addr)
    else data
  match (d1.getField "createCommand").bind Json.asArray with
  | none => d1
  | some cmd => d1.setField "createCommand" (Json.arr (patchCmdList new_addr cmd))

example :
    patch_config_dump
      (Json.obj [("staticIP", Json.str "192.168.12.2"),
        ("createCommand", Json.arr [Json.str "podman", Json.str "run", Json.str "--ip",
          Json.str "192.168.12.2", Json.str "img"])]) "10.1.1.9" =
    Json.obj [("staticIP", Json.str "10.1.1.9"),
      ("createCommand", Json.arr [Json.str "podman", Json.str "run", Json.str "--ip",
        Json.str "10.1.1.9", Json.str "img"])] := by rfl

example :
    patch_network_status
      (Json.arr [Json.obj [("ips",
        Json.arr [Json.obj [("address", Json.str "192.168.12.2/24")]])]]) "10.1.1.9" =
    Json.arr [Json.obj [("ips",
      Json.arr [Json.obj [("address", Json.str "10.1.1.9/24")]])]] := by rfl

/-- The three entry paths the rewriter treats specially. -/
def FILES_IMG_PATH : String := "checkpoint/files.img"

/-- The network status entry path. -/
def NETWORK_STATUS_PATH : String := "network.status"

/-- The config dump entry path. -/
def CONFIG_DUMP_PATH : String := "config.dump"

/-- Tar entry header, reduced to the fields the rewriter touches (size,
checksum) plus the entry path and one stand-in for the metadata it
clones untouched (mode, mtime, ownership, type flag). -/
structure Header where
  path : String
  size : Nat
  cksum : Nat
  meta : Nat

/-- One archive entry: its header and its payload bytes. -/
structure TarEntry where
  header : Header
  payload : List Nat

/-- The external collaborators of run, abstracted as functions: the crit
decode and encode subprocesses (exit status and produced data), serde
parsing and serialization of entry bytes, and the header checksum
computation of the tar crate. -/
structure Externals where
  decodeExitOk : List Nat → Bool
  decodeJson : List Nat → Option Json
  encodeExitOk : Json → Bool
  encodeBytes : Json → List Nat
  parseJson : List Nat → Option Json
  toBytes : Json → List Nat
  toBytesPretty : Json → List Nat
  cksum : Header → Nat

/-- Path normalization of run: every backslash becomes a forward slash. -/
def normalizePath (p : String) : String :=
  String.mk (p.data.map fun c => if c = Char.ofNat 92 then Char.ofNat 47 else c)

/-- Header::set_size. -/
def setSize (h : Header) (n : Nat) : Header :=
  { h with size := n }

/-- Header::set_cksum, with the checksum computation of the tar crate
abstracted into Externals. -/
def setCksum (c : Externals) (h : Header) : Header :=
  { h with cksum := c.cksum h }

/-- The body of the entry loop of run: patch the three designated paths,
copy every other entry through with only its checksum recomputed.
Errors are the strings run produces for the corresponding failures. -/
def processEntry (c : Externals) (new_addr : String) (e : TarEntry) : Except String TarEntry :=
  let p := normalizePath e.header.path
  if p = FILES_IMG_PATH then
    if c.decodeExitOk e.payload = false then Except.error "crit decode failed"
    else
      match c.decodeJson e.payload with
      | none => Except.error "invalid decoded json"
      | some data =>
        let data2 := (patch_files_img_json data new_addr).1
        if c.encodeExitOk data2 = false then Except.error "crit encode failed"
        else
          let content := c.encodeBytes data2
          Except.ok { header := setCksum c (setSize e.header content.length), payload := content }
  else if p = NETWORK_STATUS_PATH then
    match c.parseJson e.payload with
    | none => Except.error "parse network.status"
    | some d =>
      let content := c.toBytesPretty (patch_network_status d new_addr)
      Except.ok { header := setCksum c (setSize e.header content.length), payload := content }
  else if p = CONFIG_DUMP_PATH then
    match c.parseJson e.payload with
    | none => Except.error "parse config.dump"
    | some d =>
      let content := c.toBytes (patch_config_dump d new_addr)
      Except.ok { header := setCksum c (setSize e.header content.length), payload := content }
  else Except.ok { e with header := setCksum c e.header }

/-- The entry loop of run with the found_files_img flag, followed by the
missing-image check: succeeding yields the output archive entries in
order; if the image path was never observed the whole pass fails. -/
def runEntries (c : Externals) (new_addr : String) : List TarEntry → Bool → Except String (List TarEntry)
  | [], found =>
    if found then Except.ok []
    else Except.error (FILES_IMG_PATH ++ " not found in archive")
  | e :: rest, found =>
    match processEntry c new_addr e with
    | Except.error msg => Except.error msg
    | Except.ok e2 =>
      match runEntries c new_addr rest
          (found || (normalizePath e.header.path == FILES_IMG_PATH)) with
      | Except.error msg => Except.error msg
      | Except.ok out => Except.ok (e2 :: out)

/-- Embeds run: one pass over the archive entries, starting with the
found_files_img flag unset. -/
def run (c : Externals) (new_addr : String) (input : List TarEntry) : Except String (List TarEntry) :=
  runEntries c new_addr input false

/-- The file visible at the archive path after run: the rewriter writes
to a sibling temporary path and renames it over the original only on
success, so on any error the original entries are still in place. -/
def finalArchive (c : Externals) (new_addr : String) (input : List TarEntry) : List TarEntry :=
  match run c new_addr input with
  | Except.ok out => out
  | Except.error _ => input

theorem asArray_eq_some (j : Json) (xs : List Json) :
    Json.asArray j = some xs ↔ j = Json.arr xs := by
  cases j <;> simp [Json.asArray]

theorem getField_bind_asArray (d : Json) (key : String) (xs : List Json)
    (h : d.getField key = some (Json.arr xs)) :
    (d.getField key).bind Json.asArray = some xs := by
  simp [h, Json.asArray]

/-- The precondition under which the image patcher rewrites a record: an
IPv4 INETSK record whose src_addr array holds a specific address. -/
def specificInet4Inetsk (e : Json) : Prop :=
  (e.getField "type").bind Json.asStr = some "INETSK" ∧
  ∃ isk, e.getField "isk" = some isk ∧
    (((isk.getField "family").bind Json.asStr).getD "" = "AF_INET" ∨
     ((isk.getField "family").bind Json.asStr).getD "" = "INET" ∨
     ((isk.getField "family").bind Json.asU64).getD 0 = 2) ∧
    ∃ addrs, (isk.getField "src_addr").bind Json.asArray = some addrs ∧
      is_specific_addr addrs = true

theorem patchRecord_eq_self (e : Json) (h : ¬ specificInet4Inetsk e) :
    patchRecord e = (e, false) := by
  by_cases hty : (e.getField "type").bind Json.asStr = some "INETSK"
  case neg => simp [patchRecord, hty]
  case pos =>
    cases hisk : e.getField "isk" with
    | none => simp [patchRecord, hty, hisk]
    | some isk =>
      by_cases hfam : ((isk.getField "family").bind Json.asStr).getD "" = "AF_INET" ∨
          ((isk.getField "family").bind Json.asStr).getD "" = "INET" ∨
          ((isk.getField "family").bind Json.asU64).getD 0 = 2
      case neg => simp [patchRecord, hty, hisk, hfam]
      case pos =>
        cases haddr : (isk.getField "src_addr").bind Json.asArray with
        | none => simp [patchRecord, hty, hisk, if_pos hfam, haddr]
        | some addrs =>
          cases hspec : is_specific_addr addrs with
          | false => simp [patchRecord, hty, hisk, if_pos hfam, haddr, hspec]
          | true => exact absurd ⟨hty, isk, hisk, hfam, addrs, haddr, hspec⟩ h

theorem patchRecord_rewrites (entry isk : Json) (addrs : List Json)
    (h3 : (entry.getField "type").bind Json.asStr = some "INETSK")
    (h4 : entry.getField "isk" = some isk)
    (h5 : ((isk.getField "family").bind Json.asStr).getD "" = "AF_INET" ∨
      ((isk.getField "family").bind Json.asStr).getD "" = "INET" ∨
      ((isk.getField "family").bind Json.asU64).getD 0 = 2)
    (h6 : (isk.getField "src_addr").bind Json.asArray = some addrs)
    (h7 : is_specific_addr addrs = true) :
    patchRecord entry =
      (entry.setField "isk" (isk.setField "src_addr"
        (if addrs.head?.elim true Json.isNumber then Json.arr [Json.num 0]
         else Json.arr [Json.str "0.0.0.0"])), true) := by
  simp [patchRecord, h3, h4, if_pos h5, h6, h7]

theorem is_specific_addr_ne_nil (addrs : List Json) (h : is_specific_addr addrs = true) :
    addrs ≠ [] := by
  rintro rfl
  simp [is_specific_addr] at h

/-- Claim C9: the image patcher never reads new_address; running it with
any two target addresses produces the same mutated document and the same
changed flag. In the embedding this is definitional, because
patch_files_img_json discards its new_addr argument exactly as the
program does. -/
theorem image_patch_ignores_new_addr (data : Json) (a b : String) :
    patch_files_img_json data a = patch_files_img_json data b := rfl

/-- Claim C10: the image patcher is total (it is a plain function on
documents) and skips, without error and without change: documents whose
top-level entries field is missing or not an array, records whose type
is not INETSK, records without an isk sub-record, records whose family
is neither AF_INET nor INET nor the numeric code 2, and records whose
src_addr is missing or not an array. -/
theorem image_patch_skips (a : String) (data e : Json) :
    ((data.getField "entries").bind Json.asArray = none →
      patch_files_img_json data a = (data, false))
    ∧ ((e.getField "type").bind Json.asStr ≠ some "INETSK" → patchRecord e = (e, false))
    ∧ (e.getField "isk" = none → patchRecord e = (e, false))
    ∧ (∀ isk, e.getField "isk" = some isk →
        ((isk.getField "family").bind Json.asStr).getD "" ≠ "AF_INET" →
        ((isk.getField "family").bind Json.asStr).getD "" ≠ "INET" →
        ((isk.getField "family").bind Json.asU64).getD 0 ≠ 2 →
        patchRecord e = (e, false))
    ∧ (∀ isk, e.getField "isk" = some isk →
        (isk.getField "src_addr").bind Json.asArray = none →
        patchRecord e = (e, false)) := by
  refine ⟨fun h => by simp [patch_files_img_json, h], ?_, ?_, ?_, ?_⟩
  · intro h
    exact patchRecord_eq_self e fun hs => h hs.1
  · intro h
    refine patchRecord_eq_self e fun hs => ?_
    obtain ⟨-, isk, hisk, -⟩ := hs
    rw [h] at hisk
    cases hisk
  · intro isk hisk hf1 hf2 hf3
    refine patchRecord_eq_self e fun hs => ?_
    obtain ⟨-, isk2, hisk2, hfam, -⟩ := hs
    rw [hisk] at hisk2
    cases hisk2
    rcases hfam with h | h | h
    · exact hf1 h
    · exact hf2 h
    · exact hf3 h
  · intro isk hisk hsrc
    refine patchRecord_eq_self e fun hs => ?_
    obtain ⟨-, isk2, hisk2, -, addrs, haddr, -⟩ := hs
    rw [hisk] at hisk2
    cases hisk2
    rw [hsrc] at haddr
    cases haddr

/-- Witness for image_patch_skips at a concrete non-matching document and
record. -/
theorem image_patch_skips_witness :
    patch_files_img_json (Json.num 3) "10.1.1.9" = (Json.num 3, false)
    ∧ patchRecord (Json.str "x") = (Json.str "x", false) := by
  constructor
  · exact (image_patch_skips "10.1.1.9" (Json.num 3) (Json.str "x")).1 rfl
  · exact (image_patch_skips "10.1.1.9" (Json.num 3) (Json.str "x")).2.1 (by simp [Json.getField])

/-- Claim C8: on an image document in which no IPv4 INETSK record has a
specific bound address, the patcher returns the document unchanged with
the changed flag false, and the number of rewritten records it reports
is zero. The zero-change outcome is by construction not an error: the
patcher returns a value, never a failure. -/
theorem wildcard_image_unchanged (data : Json) (a : String)
    (hw : ∀ es, data.getField "entries" = some (Json.arr es) →
      ∀ e ∈ es, ¬ specificInet4Inetsk e) :
    patch_files_img_json data a = (data, false) ∧ patch_files_img_count data = 0 := by
  cases hget : (data.getField "entries").bind Json.asArray with
  | none => simp [patch_files_img_json, patch_files_img_count, hget]
  | some es =>
    obtain ⟨j, hj, hja⟩ := Option.bind_eq_some.mp hget
    rw [asArray_eq_some] at hja
    subst hja
    have hself : ∀ e ∈ es, patchRecord e = (e, false) :=
      fun e he => patchRecord_eq_self e (hw es hj e he)
    have hmap : (es.map fun e => (patchRecord e).1) = es := by
      calc es.map (fun e => (patchRecord e).1)
          = es.map id := List.map_congr_left fun e he => by simp [hself e he]
        _ = es := List.map_id es
    have hany : (es.any fun e => (patchRecord e).2) = false := by
      rw [List.any_eq_false]
      intro e he
      simp [hself e he]
    have hfil : (es.filter fun e => (patchRecord e).2) = [] := by
      rw [List.filter_eq_nil_iff]
      intro e he
      simp [hself e he]
    constructor
    · simp only [patch_files_img_json, hget, hmap, hany]
      rw [Json.setField_getField_self data "entries" (Json.arr es) hj]
    · simp [patch_files_img_count, hget, hfil]

/-- Witness for wildcard_image_unchanged at a concrete already-wildcard
document. -/
theorem wildcard_image_unchanged_witness :
    patch_files_img_json
      (Json.obj [("entries", Json.arr [Json.obj [("type", Json.str "INETSK"),
        ("isk", Json.obj [("family", Json.str "AF_INET"),
          ("src_addr", Json.arr [Json.num 0])])]])]) "10.1.1.9" =
      (Json.obj [("entries", Json.arr [Json.obj [("type", Json.str "INETSK"),
        ("isk", Json.obj [("family", Json.str "AF_INET"),
          ("src_addr", Json.arr [Json.num 0])])]])], false) := by
  refine (wildcard_image_unchanged _ "10.1.1.9" ?_).1
  intro es hes e he
  rintro ⟨-, isk, hisk, -, addrs, haddr, hspec⟩
  simp [Json.getField, Json.lookupField] at hes
  subst hes
  simp at he
  subst he
  simp [Json.getField, Json.lookupField] at hisk
  subst hisk
  simp [Json.getField, Json.lookupField, Json.asArray] at haddr
  subst haddr
  simp [is_specific_addr, specificElem, Json.asU64] at hspec

theorem specificElem_iff (x : Json) :
    specificElem x = true ↔
    (∃ n, Json.asU64 x = some n ∧ n ≠ 0) ∨
      (∃ s, Json.asStr x = some s ∧ s ≠ "" ∧ s ≠ "0.0.0.0" ∧ s ≠ "::" ∧ s ≠ "0") := by
  cases x with
  | num n =>
    have hlit : (2 : ℤ) ^ 64 = 18446744073709551616 := by norm_num
    by_cases h64 : 0 ≤ n ∧ n < 2 ^ 64
    · obtain ⟨ha, hb⟩ := h64
      rw [hlit] at hb
      simp [specificElem, Json.asU64, Json.asStr, ha, hb]
    · rcases not_and_or.mp h64 with h | h
      · simp [specificElem, Json.asU64, Json.asStr, h]
      · rw [hlit] at h
        simp [specificElem, Json.asU64, Json.asStr, h]
  | str s => simp [specificElem, Json.asU64, Json.asStr, and_assoc]
  | null => simp [specificElem, Json.asU64, Json.asStr]
  | bool b => simp [specificElem, Json.asU64, Json.asStr]
  | arr xs => simp [specificElem, Json.asU64, Json.asStr]
  | obj fs => simp [specificElem, Json.asU64, Json.asStr]

/-- Counterexample for claim C5: a src_addr element holding the empty
string is neither the numeric value 0 nor one of the three listed
textual forms, yet the patcher does not treat it as specific and leaves
the record unchanged (the code additionally requires a textual address
to be nonempty). -/
theorem specific_addr_claim_counterexample :
    patchRecord (Json.obj [("type", Json.str "INETSK"),
      ("isk", Json.obj [("family", Json.str "AF_INET"),
        ("src_addr", Json.arr [Json.str ""])])]) =
      (Json.obj [("type", Json.str "INETSK"),
        ("isk", Json.obj [("family", Json.str "AF_INET"),
          ("src_addr", Json.arr [Json.str ""])])], false)
    ∧ is_specific_addr [Json.str ""] = false
    ∧ Json.str "" ≠ Json.num 0
    ∧ Json.str "" ≠ Json.str "0.0.0.0"
    ∧ Json.str "" ≠ Json.str "::"
    ∧ Json.str "" ≠ Json.str "0" := by
  refine ⟨rfl, rfl, ?_, ?_, ?_, ?_⟩ <;> simp

/-- Claim C5 (amended): for an IPv4 INETSK record carrying a src_addr
array, the bound-address sequence is rewritten if and only if the array
contains a specific element, where a numeric element is specific exactly
when it is nonzero and a textual element exactly when it is nonempty and
none of the forms 0.0.0.0, ::, 0 (elements of any other shape are never
specific); a record whose array has no specific element is returned
unchanged. -/
theorem specific_addr_rewrite_iff (e isk : Json) (addrs : List Json)
    (h3 : (e.getField "type").bind Json.asStr = some "INETSK")
    (h4 : e.getField "isk" = some isk)
    (h5 : ((isk.getField "family").bind Json.asStr).getD "" = "AF_INET" ∨
      ((isk.getField "family").bind Json.asStr).getD "" = "INET" ∨
      ((isk.getField "family").bind Json.asU64).getD 0 = 2)
    (h6 : (isk.getField "src_addr").bind Json.asArray = some addrs) :
    ((patchRecord e).2 = true ↔ is_specific_addr addrs = true)
    ∧ (is_specific_addr addrs = true ↔
        ∃ x ∈ addrs, (∃ n, Json.asU64 x = some n ∧ n ≠ 0) ∨
          (∃ s, Json.asStr x = some s ∧ s ≠ "" ∧ s ≠ "0.0.0.0" ∧ s ≠ "::" ∧ s ≠ "0"))
    ∧ (is_specific_addr addrs = false → patchRecord e = (e, false)) := by
  refine ⟨?_, ?_, ?_⟩
  · cases hspec : is_specific_addr addrs with
    | true => simp [patchRecord_rewrites e isk addrs h3 h4 h5 h6 hspec]
    | false => simp [patchRecord, h3, h4, if_pos h5, h6, hspec]
  · rw [is_specific_addr, List.any_eq_true]
    constructor
    · rintro ⟨x, hx, hp⟩
      exact ⟨x, hx, (specificElem_iff x).mp hp⟩
    · rintro ⟨x, hx, hp⟩
      exact ⟨x, hx, (specificElem_iff x).mpr hp⟩
  · intro hspec
    simp [patchRecord, h3, h4, if_pos h5, h6, hspec]

/-- Witness for specific_addr_rewrite_iff at a concrete record bound to
the specific numeric address 10.0.0.5. -/
theorem specific_addr_rewrite_iff_witness :
    ((patchRecord (Json.obj [("type", Json.str "INETSK"),
      ("isk", Json.obj [("family", Json.str "AF_INET"),
        ("src_addr", Json.arr [Json.num 167772165])])])).2 = true ↔
      is_specific_addr [Json.num 167772165] = true) := by
  exact (specific_addr_rewrite_iff
    (Json.obj [("type", Json.str "INETSK"),
      ("isk", Json.obj [("family", Json.str "AF_INET"),
        ("src_addr", Json.arr [Json.num 167772165])])])
    (Json.obj [("family", Json.str "AF_INET"),
      ("src_addr", Json.arr [Json.num 167772165])])
    [Json.num 167772165] rfl rfl (Or.inl rfl) rfl).1

/-- Claim C2: a decoded image document record of type INETSK with IPv4
family whose src_addr contains a specific address gets its whole
src_addr replaced by the single wildcard element: numeric 0 when the
original elements were numeric, the string 0.0.0.0 when they were
textual; and the result does not depend on the supplied new_address. -/
theorem inetsk_specific_wildcarded (a b : String) (data : Json) (es : List Json) (i : Nat)
    (entry isk : Json) (addrs : List Json)
    (h1 : data.getField "entries" = some (Json.arr es))
    (h2 : es.get? i = some entry)
    (h3 : (entry.getField "type").bind Json.asStr = some "INETSK")
    (h4 : entry.getField "isk" = some isk)
    (h5 : ((isk.getField "family").bind Json.asStr).getD "" = "AF_INET" ∨
      ((isk.getField "family").bind Json.asStr).getD "" = "INET" ∨
      ((isk.getField "family").bind Json.asU64).getD 0 = 2)
    (h6 : isk.getField "src_addr" = some (Json.arr addrs))
    (h7 : is_specific_addr addrs = true) :
    patch_files_img_json data a = patch_files_img_json data b
    ∧ ∃ es2 e2 isk2,
        (patch_files_img_json data a).1.getField "entries" = some (Json.arr es2)
        ∧ es2.get? i = some e2
        ∧ e2.getField "isk" = some isk2
        ∧ ((∀ x ∈ addrs, x.isNumber = true) →
            isk2.getField "src_addr" = some (Json.arr [Json.num 0]))
        ∧ ((∀ x ∈ addrs, ∃ s, x = Json.str s) →
            isk2.getField "src_addr" = some (Json.arr [Json.str "0.0.0.0"])) := by
  refine ⟨rfl, ?_⟩
  have h6b : (isk.getField "src_addr").bind Json.asArray = some addrs :=
    getField_bind_asArray isk "src_addr" addrs h6
  have h1b : (data.getField "entries").bind Json.asArray = some es :=
    getField_bind_asArray data "entries" es h1
  have hrw := patchRecord_rewrites entry isk addrs h3 h4 h5 h6b h7
  refine ⟨es.map fun e => (patchRecord e).1,
    (patchRecord entry).1,
    isk.setField "src_addr"
      (if addrs.head?.elim true Json.isNumber then Json.arr [Json.num 0]
       else Json.arr [Json.str "0.0.0.0"]), ?_, ?_, ?_, ?_, ?_⟩
  · simp only [patch_files_img_json, h1b]
    exact Json.getField_setField_self data "entries" _ _ h1
  · rw [List.get?_map, h2]
    rfl
  · rw [hrw]
    exact Json.getField_setField_self entry "isk" _ isk h4
  · intro hnum
    have hhead : addrs.head?.elim true Json.isNumber = true := by
      cases addrs with
      | nil => rfl
      | cons x t => exact hnum x (List.mem_cons_self x t)
    rw [if_pos hhead]
    exact Json.getField_setField_self isk "src_addr" _ _ h6
  · intro hstr
    cases haddrs : addrs with
    | nil => exact absurd rfl (haddrs ▸ is_specific_addr_ne_nil addrs h7)
    | cons x t =>
      obtain ⟨s, hs⟩ := hstr x (by rw [haddrs]; exact List.mem_cons_self x t)
      subst hs
      rw [show ((Json.str s :: t).head?.elim true Json.isNumber) = false from rfl]
      simp only [Bool.false_eq_true, if_false]
      exact Json.getField_setField_self isk "src_addr" _ _ h6

/-- Witness for inetsk_specific_wildcarded at a concrete one-record
image document bound to a specific numeric address. -/
theorem inetsk_specific_wildcarded_witness :
    ∃ es2 e2 isk2,
      (patch_files_img_json (Json.obj [("entries", Json.arr [Json.obj
        [("type", Json.str "INETSK"),
         ("isk", Json.obj [("family", Json.str "AF_INET"),
           ("src_addr", Json.arr [Json.num 167772165])])]])]) "10.1.1.9").1.getField
        "entries" = some (Json.arr es2)
      ∧ es2.get? 0 = some e2
      ∧ e2.getField "isk" = some isk2
      ∧ ((∀ x ∈ [Json.num (167772165 : Int)], x.isNumber = true) →
          isk2.getField "src_addr" = some (Json.arr [Json.num 0]))
      ∧ ((∀ x ∈ [Json.num (167772165 : Int)], ∃ s, x = Json.str s) →
          isk2.getField "src_addr" = some (Json.arr [Json.str "0.0.0.0"])) := by
  exact (inetsk_specific_wildcarded "10.1.1.9" "10.7.7.7"
    (Json.obj [("entries", Json.arr [Json.obj
      [("type", Json.str "INETSK"),
       ("isk", Json.obj [("family", Json.str "AF_INET"),
         ("src_addr", Json.arr [Json.num 167772165])])]])])
    [Json.obj [("type", Json.str "INETSK"),
      ("isk", Json.obj [("family", Json.str "AF_INET"),
        ("src_addr", Json.arr [Json.num 167772165])])]] 0
    (Json.obj [("type", Json.str "INETSK"),
      ("isk", Json.obj [("family", Json.str "AF_INET"),
        ("src_addr", Json.arr [Json.num 167772165])])])
    (Json.obj [("family", Json.str "AF_INET"),
      ("src_addr", Json.arr [Json.num 167772165])])
    [Json.num 167772165] rfl rfl rfl rfl (Or.inl rfl) rfl rfl).2

/-- Claim C6: for every interface record and every one of its address
records carrying an address field, the field is rebuilt as new_address,
the separator, and the routing-prefix length taken from the second
slash-separated segment of the old field (24 when absent); an empty
document is a no-op, and the concrete example from the specification
holds. -/
theorem network_status_rebuild (a : String) (ifaces ips : List Json) (i j : Nat)
    (iface ip : Json) (old : String)
    (h1 : ifaces.get? i = some iface)
    (h2 : iface.getField "ips" = some (Json.arr ips))
    (h3 : ips.get? j = some ip)
    (h4 : ip.getField "address" = some (Json.str old)) :
    patch_network_status (Json.arr []) a = Json.arr []
    ∧ patch_network_status (Json.arr [Json.obj [("ips",
        Json.arr [Json.obj [("address", Json.str "192.168.12.2/24")]])]]) "10.1.1.9" =
      Json.arr [Json.obj [("ips",
        Json.arr [Json.obj [("address", Json.str "10.1.1.9/24")]])]]
    ∧ (∃ ifaces2 if2 ips2 ip2,
        patch_network_status (Json.arr ifaces) a = Json.arr ifaces2
        ∧ ifaces2.get? i = some if2
        ∧ if2.getField "ips" = some (Json.arr ips2)
        ∧ ips2.get? j = some ip2
        ∧ ip2.getField "address" =
            some (Json.str (a ++ "/" ++ nthSegment (Char.ofNat 47) old "24"))) := by
  refine ⟨rfl, rfl, ifaces.map (patchIface a), patchIface a iface,
    ips.map (patchIp a), patchIp a ip, rfl, ?_, ?_, ?_, ?_⟩
  · rw [List.get?_map, h1]
    rfl
  · have hpi : patchIface a iface = iface.setField "ips" (Json.arr (ips.map (patchIp a))) := by
      simp [patchIface, getField_bind_asArray iface "ips" ips h2]
    rw [hpi]
    exact Json.getField_setField_self iface "ips" _ _ h2
  · rw [List.get?_map, h3]
    rfl
  · have hip : patchIp a ip =
        ip.setField "address" (Json.str (a ++ "/" ++ nthSegment (Char.ofNat 47) old "24")) := by
      simp [patchIp, h4, Json.asStr]
    rw [hip]
    exact Json.getField_setField_self ip "address" _ _ h4

/-- Witness for network_status_rebuild at the concrete one-interface
document of the specification. -/
theorem network_status_rebuild_witness :
    ∃ ifaces2 if2 ips2 ip2,
      patch_network_status (Json.arr [Json.obj [("ips",
        Json.arr [Json.obj [("address", Json.str "192.168.12.2/24")]])]]) "10.1.1.9" =
        Json.arr ifaces2
      ∧ ifaces2.get? 0 = some if2
      ∧ if2.getField "ips" = some (Json.arr ips2)
      ∧ ips2.get? 0 = some ip2
      ∧ ip2.getField "address" =
          some (Json.str ("10.1.1.9" ++ "/" ++ nthSegment (Char.ofNat 47) "192.168.12.2/24" "24")) := by
  exact (network_status_rebuild "10.1.1.9"
    [Json.obj [("ips", Json.arr [Json.obj [("address", Json.str "192.168.12.2/24")]])]]
    [Json.obj [("address", Json.str "192.168.12.2/24")]] 0 0
    (Json.obj [("ips", Json.arr [Json.obj [("address", Json.str "192.168.12.2/24")]])])
    (Json.obj [("address", Json.str "192.168.12.2/24")])
    "192.168.12.2/24" rfl rfl rfl rfl).2.2

theorem patchCmdGo_head (a : String) (l : List Json) (x : Json) :
    (patchCmdGo a x l).get? 0 = some x := by
  cases l with
  | nil => rfl
  | cons y t =>
    by_cases hx : x.asStr = some "--ip" <;> simp [patchCmdGo, hx]

theorem patchCmdGo_length (a : String) :
    ∀ (l : List Json) (x : Json), (patchCmdGo a x l).length = l.length + 1 := by
  intro l
  induction l with
  | nil => intro x; rfl
  | cons y t ih =>
    intro x
    by_cases hx : x.asStr = some "--ip" <;> simp [patchCmdGo, hx, ih]

theorem patchCmdGo_flag (a : String) :
    ∀ (l : List Json) (x : Json) (i : Nat) (z : Json),
      (patchCmdGo a x l).get? i = some (Json.str "--ip") →
      (patchCmdGo a x l).get? (i + 1) = some z → z = Json.str a := by
  intro l
  induction l with
  | nil =>
    intro x i z hi hz
    cases i <;> simp [patchCmdGo] at hz
  | cons y t ih =>
    intro x i z hi hz
    by_cases hx : x.asStr = some "--ip"
    · have heq : patchCmdGo a x (y :: t) = x :: patchCmdGo a (Json.str a) t := by
        simp [patchCmdGo, hx]
      rw [heq] at hi hz
      cases i with
      | zero =>
        have hhd := patchCmdGo_head a t (Json.str a)
        simp only [List.get?_cons_succ] at hz
        rw [hhd] at hz
        injection hz with h2
        exact h2.symm
      | succ i2 =>
        exact ih (Json.str a) i2 z hi hz
    · have heq : patchCmdGo a x (y :: t) = x :: patchCmdGo a y t := by
        simp [patchCmdGo, hx]
      rw [heq] at hi hz
      cases i with
      | zero =>
        simp only [List.get?_cons_zero] at hi
        injection hi with hi2
        rw [hi2] at hx
        exact absurd rfl hx
      | succ i2 =>
        exact ih y i2 z hi hz

theorem patchCmdList_length (a : String) (l : List Json) :
    (patchCmdList a l).length = l.length := by
  cases l with
  | nil => rfl
  | cons x t => exact patchCmdGo_length a t x

theorem patchCmdList_flag (a : String) (l : List Json) (i : Nat) (z : Json)
    (hi : (patchCmdList a l).get? i = some (Json.str "--ip"))
    (hz : (patchCmdList a l).get? (i + 1) = some z) : z = Json.str a := by
  cases l with
  | nil => simp [patchCmdList] at hi
  | cons x t => exact patchCmdGo_flag a t x i z hi hz

/-- Counterexample for claim C7: in the input sequence, the element at
index 2 immediately follows an element (index 1) equal to the flag
token, yet it is not overwritten, because the left-to-right scan first
overwrote index 1 (it follows index 0, also the flag token) and then
examined the overwritten value there. -/
theorem config_flag_claim_counterexample :
    patch_config_dump (Json.obj [("createCommand",
      Json.arr [Json.str "--ip", Json.str "--ip", Json.str "x"])]) "10.1.1.9" =
      Json.obj [("createCommand",
        Json.arr [Json.str "--ip", Json.str "10.1.1.9", Json.str "x"])]
    ∧ [Json.str "--ip", Json.str "--ip", Json.str "x"].get? 1 = some (Json.str "--ip")
    ∧ Json.str "x" ≠ Json.str "10.1.1.9" := by
  refine ⟨rfl, rfl, by simp⟩

theorem config_d1_getField_cc (d : Json) (a : String) :
    (if (d.getField "staticIP").isSome then d.setField "staticIP" (Json.str a)
     else d).getField "createCommand" = d.getField "createCommand" := by
  by_cases hsp : (d.getField "staticIP").isSome
  · rw [if_pos hsp]
    exact Json.getField_setField_ne d "staticIP" "createCommand" _ (by decide)
  · rw [if_neg hsp]

theorem config_d1_getField_sip_some (d ds : Json) (a : String)
    (hs : d.getField "staticIP" = some ds) :
    (if (d.getField "staticIP").isSome then d.setField "staticIP" (Json.str a)
     else d).getField "staticIP" = some (Json.str a) := by
  rw [if_pos (by simp [hs])]
  exact Json.getField_setField_self d "staticIP" _ _ hs

theorem config_d1_getField_sip_none (d : Json) (a : String)
    (hs : d.getField "staticIP" = none) :
    (if (d.getField "staticIP").isSome then d.setField "staticIP" (Json.str a)
     else d).getField "staticIP" = none := by
  rw [if_neg (by simp [hs])]
  exact hs

/-- Claim C7 (amended): the two rules are independent, each fires under
its own field alone. Whenever staticIP is present it is overwritten with
new_address, whatever the createCommand field holds; whenever
createCommand holds a sequence, the patched sequence keeps its length
and every element immediately following an element that (still) equals
the flag token is new_address — the scan overwrites the successor of
every occurrence of the flag token it did not itself overwrite —
whatever the staticIP field holds; a missing staticIP stays missing, a
missing or non-array createCommand is left as it was, a document with
neither field is returned unchanged, and the concrete example of the
specification holds. -/
theorem config_dump_patch (a : String) (d : Json) :
    (∀ ds, d.getField "staticIP" = some ds →
      (patch_config_dump d a).getField "staticIP" = some (Json.str a))
    ∧ (∀ cmd, d.getField "createCommand" = some (Json.arr cmd) →
        ∃ cmd2, (patch_config_dump d a).getField "createCommand" = some (Json.arr cmd2)
          ∧ cmd2.length = cmd.length
          ∧ ∀ i z, cmd2.get? i = some (Json.str "--ip") → cmd2.get? (i + 1) = some z →
              z = Json.str a)
    ∧ (d.getField "staticIP" = none → (patch_config_dump d a).getField "staticIP" = none)
    ∧ ((d.getField "createCommand").bind Json.asArray = none →
        (patch_config_dump d a).getField "createCommand" = d.getField "createCommand")
    ∧ patch_config_dump (Json.obj []) a = Json.obj []
    ∧ patch_config_dump
        (Json.obj [("staticIP", Json.str "192.168.12.2"),
          ("createCommand", Json.arr [Json.str "podman", Json.str "run", Json.str "--ip",
            Json.str "192.168.12.2", Json.str "img"])]) "10.1.1.9" =
      Json.obj [("staticIP", Json.str "10.1.1.9"),
        ("createCommand", Json.arr [Json.str "podman", Json.str "run", Json.str "--ip",
          Json.str "10.1.1.9", Json.str "img"])] := by
  refine ⟨?_, ?_, ?_, ?_, rfl, rfl⟩
  · intro ds hs
    simp only [patch_config_dump]
    rw [config_d1_getField_cc d a]
    cases hv : (d.getField "createCommand").bind Json.asArray with
    | none => exact config_d1_getField_sip_some d ds a hs
    | some cmd =>
      rw [Json.getField_setField_ne _ "createCommand" "staticIP" _ (by decide)]
      exact config_d1_getField_sip_some d ds a hs
  · intro cmd hc
    simp only [patch_config_dump]
    rw [config_d1_getField_cc d a, hc]
    simp only [Option.some_bind, Json.asArray]
    refine ⟨patchCmdList a cmd, ?_, patchCmdList_length a cmd,
      fun i z hi hz => patchCmdList_flag a cmd i z hi hz⟩
    refine Json.getField_setField_self _ "createCommand" _ (Json.arr cmd) ?_
    rw [config_d1_getField_cc d a]
    exact hc
  · intro hs
    simp only [patch_config_dump]
    rw [config_d1_getField_cc d a]
    cases hv : (d.getField "createCommand").bind Json.asArray with
    | none => exact config_d1_getField_sip_none d a hs
    | some cmd =>
      rw [Json.getField_setField_ne _ "createCommand" "staticIP" _ (by decide)]
      exact config_d1_getField_sip_none d a hs
  · intro hv
    simp only [patch_config_dump]
    rw [config_d1_getField_cc d a, hv]
    exact config_d1_getField_cc d a

/-- Witness for config_dump_patch: the staticIP rule alone on a document
without createCommand, the createCommand rule alone on a document
without staticIP, and both together on the concrete config document of
the specification. -/
theorem config_dump_patch_witness :
    (patch_config_dump (Json.obj [("staticIP", Json.str "192.168.12.2")])
      "10.1.1.9").getField "staticIP" = some (Json.str "10.1.1.9")
    ∧ (∃ cmd2, (patch_config_dump (Json.obj [("createCommand",
          Json.arr [Json.str "--ip", Json.str "192.168.12.2"])])
          "10.1.1.9").getField "createCommand" = some (Json.arr cmd2)
        ∧ cmd2.length = 2
        ∧ ∀ i z, cmd2.get? i = some (Json.str "--ip") → cmd2.get? (i + 1) = some z →
            z = Json.str "10.1.1.9")
    ∧ (patch_config_dump (Json.obj [("staticIP", Json.str "192.168.12.2"),
        ("createCommand", Json.arr [Json.str "podman", Json.str "run", Json.str "--ip",
          Json.str "192.168.12.2", Json.str "img"])]) "10.1.1.9").getField "staticIP" =
        some (Json.str "10.1.1.9") := by
  refine ⟨?_, ?_, ?_⟩
  · exact (config_dump_patch "10.1.1.9"
      (Json.obj [("staticIP", Json.str "192.168.12.2")])).1 (Json.str "192.168.12.2") rfl
  · exact (config_dump_patch "10.1.1.9"
      (Json.obj [("createCommand",
        Json.arr [Json.str "--ip", Json.str "192.168.12.2"])])).2.1
      [Json.str "--ip", Json.str "192.168.12.2"] rfl
  · exact (config_dump_patch "10.1.1.9"
      (Json.obj [("staticIP", Json.str "192.168.12.2"),
        ("createCommand", Json.arr [Json.str "podman", Json.str "run", Json.str "--ip",
          Json.str "192.168.12.2", Json.str "img"])])).1 (Json.str "192.168.12.2") rfl

theorem processEntry_ok_path (c : Externals) (a : String) (e e2 : TarEntry)
    (h : processEntry c a e = Except.ok e2) : e2.header.path = e.header.path := by
  simp only [processEntry] at h
  repeat' split at h
  all_goals
    first
      | (injection h with h2; subst h2; rfl)
      | simp at h

theorem processEntry_unmatched (c : Externals) (a : String) (e : TarEntry)
    (h1 : normalizePath e.header.path ≠ FILES_IMG_PATH)
    (h2 : normalizePath e.header.path ≠ NETWORK_STATUS_PATH)
    (h3 : normalizePath e.header.path ≠ CONFIG_DUMP_PATH) :
    processEntry c a e = Except.ok { e with header := setCksum c e.header } := by
  simp [processEntry, h1, h2, h3]

theorem runEntries_ok (c : Externals) (a : String) :
    ∀ (l : List TarEntry) (found : Bool) (out : List TarEntry),
      runEntries c a l found = Except.ok out →
      (out.map (fun e => normalizePath e.header.path) =
        l.map fun e => normalizePath e.header.path)
      ∧ ∀ i ein, l.get? i = some ein → ∃ eout, out.get? i = some eout
          ∧ eout.header.path = ein.header.path
          ∧ (normalizePath ein.header.path ≠ FILES_IMG_PATH →
             normalizePath ein.header.path ≠ NETWORK_STATUS_PATH →
             normalizePath ein.header.path ≠ CONFIG_DUMP_PATH →
             eout.payload = ein.payload) := by
  intro l
  induction l with
  | nil =>
    intro found out h
    cases found with
    | false => simp [runEntries] at h
    | true =>
      simp only [runEntries, if_true] at h
      injection h with h2
      subst h2
      exact ⟨rfl, fun i ein hin => by simp at hin⟩
  | cons e rest ih =>
    intro found out h
    simp only [runEntries] at h
    cases hp : processEntry c a e with
    | error msg => rw [hp] at h; simp at h
    | ok e2 =>
      rw [hp] at h
      cases hr : runEntries c a rest
          (found || (normalizePath e.header.path == FILES_IMG_PATH)) with
      | error msg => rw [hr] at h; simp at h
      | ok out2 =>
        rw [hr] at h
        injection h with h2
        subst h2
        obtain ⟨ihmap, ihidx⟩ := ih _ _ hr
        constructor
        · simp only [List.map_cons, ihmap, List.cons.injEq, and_true]
          rw [processEntry_ok_path c a e e2 hp]
        · intro i ein hin
          cases i with
          | zero =>
            simp only [List.get?_cons_zero] at hin
            injection hin with hin2
            subst hin2
            refine ⟨e2, rfl, processEntry_ok_path c a e e2 hp, ?_⟩
            intro hn1 hn2 hn3
            rw [processEntry_unmatched c a e hn1 hn2 hn3] at hp
            injection hp with hp2
            rw [← hp2]
          | succ i2 =>
            simp only [List.get?_cons_succ] at hin
            obtain ⟨eout, ho, hpth, hpay⟩ := ihidx i2 ein hin
            exact ⟨eout, ho, hpth, hpay⟩

/-- Claim C1: when run succeeds, the output archive has the entries of
the input in the same order with the same (normalized) paths, and every
entry whose normalized path is none of the three designated paths keeps
its payload bytes exactly. -/
theorem run_preserves_entries (c : Externals) (a : String) (input out : List TarEntry)
    (h : run c a input = Except.ok out) :
    (out.map (fun e => normalizePath e.header.path) =
      input.map fun e => normalizePath e.header.path)
    ∧ ∀ i ein, input.get? i = some ein → ∃ eout, out.get? i = some eout
        ∧ eout.header.path = ein.header.path
        ∧ (normalizePath ein.header.path ≠ FILES_IMG_PATH →
           normalizePath ein.header.path ≠ NETWORK_STATUS_PATH →
           normalizePath ein.header.path ≠ CONFIG_DUMP_PATH →
           eout.payload = ein.payload) :=
  runEntries_ok c a input false out h

/-- External collaborators that always succeed, for concrete runs. -/
def extOk : Externals :=
  { decodeExitOk := fun _ => true
    decodeJson := fun _ => some (Json.obj [])
    encodeExitOk := fun _ => true
    encodeBytes := fun _ => [7]
    parseJson := fun _ => some (Json.arr [])
    toBytes := fun _ => []
    toBytesPretty := fun _ => []
    cksum := fun _ => 0 }

/-- A concrete image entry. -/
def entryFiles : TarEntry :=
  { header := { path := "checkpoint/files.img", size := 3, cksum := 5, meta := 1 }
    payload := [1, 2, 3] }

/-- A concrete pass-through entry. -/
def entryOther : TarEntry :=
  { header := { path := "data/other.bin", size := 1, cksum := 9, meta := 2 }
    payload := [9] }

/-- The image entry as rewritten by the concrete run. -/
def outFiles : TarEntry :=
  { header := { path := "checkpoint/files.img", size := 1, cksum := 0, meta := 1 }
    payload := [7] }

/-- The pass-through entry as re-emitted by the concrete run. -/
def outOther : TarEntry :=
  { header := { path := "data/other.bin", size := 1, cksum := 0, meta := 2 }
    payload := [9] }

/-- Witness for run_preserves_entries on a concrete two-entry archive. -/
theorem run_preserves_entries_witness :
    run extOk "10.1.1.9" [entryFiles, entryOther] = Except.ok [outFiles, outOther]
    ∧ ([outFiles, outOther].map (fun e => normalizePath e.header.path) =
       [entryFiles, entryOther].map fun e => normalizePath e.header.path) := by
  refine ⟨rfl, ?_⟩
  exact (run_preserves_entries extOk "10.1.1.9" [entryFiles, entryOther] _ rfl).1

theorem runEntries_missing (c : Externals) (a : String) :
    ∀ (l : List TarEntry), (∀ e ∈ l, normalizePath e.header.path ≠ FILES_IMG_PATH) →
      (∃ msg, runEntries c a l false = Except.error msg)
      ∧ ((∀ e ∈ l, ∃ e2, processEntry c a e = Except.ok e2) →
          runEntries c a l false = Except.error (FILES_IMG_PATH ++ " not found in archive")) := by
  intro l
  induction l with
  | nil =>
    intro hnone
    exact ⟨⟨FILES_IMG_PATH ++ " not found in archive", rfl⟩, fun _ => rfl⟩
  | cons e rest ih =>
    intro hnone
    have hne := hnone e (List.mem_cons_self e rest)
    have hfound : (false || (normalizePath e.header.path == FILES_IMG_PATH)) = false := by
      simp [hne]
    obtain ⟨⟨msg, hmsg⟩, hexact⟩ := ih fun x hx => hnone x (List.mem_cons_of_mem e hx)
    cases hp : processEntry c a e with
    | error msg2 =>
      refine ⟨⟨msg2, by simp only [runEntries, hp]⟩, fun hall => ?_⟩
      obtain ⟨e2, he2⟩ := hall e (List.mem_cons_self e rest)
      rw [hp] at he2
      cases he2
    | ok e2 =>
      constructor
      · exact ⟨msg, by simp only [runEntries, hp, hfound, hmsg]⟩
      · intro hall
        have hrec := hexact fun x hx => hall x (List.mem_cons_of_mem e hx)
        simp only [runEntries, hp, hfound, hrec]

/-- Claim C3: when no entry of the archive has the image path, run always
fails, the file at the archive path is unchanged (the temporary output
is never renamed over it), and when every entry of the scan itself
processes cleanly the reported error is precisely the missing-image
message produced after the full scan. -/
theorem missing_image_fails (c : Externals) (a : String) (input : List TarEntry)
    (h : ∀ e ∈ input, normalizePath e.header.path ≠ FILES_IMG_PATH) :
    (∃ msg, run c a input = Except.error msg)
    ∧ finalArchive c a input = input
    ∧ ((∀ e ∈ input, ∃ e2, processEntry c a e = Except.ok e2) →
        run c a input = Except.error (FILES_IMG_PATH ++ " not found in archive")) := by
  obtain ⟨⟨msg, hmsg⟩, hexact⟩ := runEntries_missing c a input h
  have hrun : run c a input = Except.error msg := hmsg
  exact ⟨⟨msg, hrun⟩, by simp [finalArchive, hrun], hexact⟩

/-- Witness for missing_image_fails on a concrete one-entry archive
without the image entry. -/
theorem missing_image_fails_witness :
    finalArchive extOk "10.1.1.9" [entryOther] = [entryOther]
    ∧ run extOk "10.1.1.9" [entryOther] =
        Except.error (FILES_IMG_PATH ++ " not found in archive") := by
  have hno : ∀ e ∈ [entryOther], normalizePath e.header.path ≠ FILES_IMG_PATH := by
    intro e he
    simp only [List.mem_singleton] at he
    subst he
    decide
  have h := missing_image_fails extOk "10.1.1.9" [entryOther] hno
  refine ⟨h.2.1, h.2.2 ?_⟩
  intro e he
  simp only [List.mem_singleton] at he
  subst he
  exact ⟨{ entryOther with header := setCksum extOk entryOther.header }, rfl⟩

theorem runEntries_firstFail (c : Externals) (a : String) (e : TarEntry) (rest : List TarEntry)
    (msg : String) (he : processEntry c a e = Except.error msg) :
    ∀ (pre : List TarEntry) (found : Bool),
      (∀ x ∈ pre, ∃ x2, processEntry c a x = Except.ok x2) →
      runEntries c a (pre ++ e :: rest) found = Except.error msg := by
  intro pre
  induction pre with
  | nil =>
    intro found hall
    simp only [List.nil_append, runEntries, he]
  | cons x t ih =>
    intro found hall
    obtain ⟨x2, hx2⟩ := hall x (List.mem_cons_self x t)
    have hrec := ih (found || (normalizePath x.header.path == FILES_IMG_PATH))
      fun y hy => hall y (List.mem_cons_of_mem x hy)
    simp only [List.cons_append, runEntries, hx2, List.append_eq, hrec]

theorem processEntry_decode_fail (c : Externals) (a : String) (e : TarEntry)
    (hpath : normalizePath e.header.path = FILES_IMG_PATH)
    (hdec : c.decodeExitOk e.payload = false) :
    processEntry c a e = Except.error "crit decode failed" := by
  simp [processEntry, hpath, hdec]

theorem processEntry_encode_fail (c : Externals) (a : String) (e : TarEntry) (d : Json)
    (hpath : normalizePath e.header.path = FILES_IMG_PATH)
    (hdec : c.decodeExitOk e.payload = true)
    (hjson : c.decodeJson e.payload = some d)
    (henc : c.encodeExitOk (patch_files_img_json d a).1 = false) :
    processEntry c a e = Except.error "crit encode failed" := by
  simp [processEntry, hpath, hdec, hjson, henc]

/-- Claim C4: a non-zero exit of the external codec on the decode or the
encode invocation of the image entry makes run fail with a message
naming that stage (the single subprocess call is made once, with no
retry), and the file at the archive path keeps the original entries
because the rename step is never reached. -/
theorem codec_failure_aborts (c : Externals) (a : String) (pre : List TarEntry)
    (e : TarEntry) (rest : List TarEntry)
    (hpre : ∀ x ∈ pre, ∃ x2, processEntry c a x = Except.ok x2)
    (hpath : normalizePath e.header.path = FILES_IMG_PATH) :
    (c.decodeExitOk e.payload = false →
      run c a (pre ++ e :: rest) = Except.error "crit decode failed"
      ∧ finalArchive c a (pre ++ e :: rest) = pre ++ e :: rest)
    ∧ (∀ d, c.decodeExitOk e.payload = true → c.decodeJson e.payload = some d →
        c.encodeExitOk (patch_files_img_json d a).1 = false →
        run c a (pre ++ e :: rest) = Except.error "crit encode failed"
        ∧ finalArchive c a (pre ++ e :: rest) = pre ++ e :: rest) := by
  constructor
  · intro hdec
    have hrun : run c a (pre ++ e :: rest) = Except.error "crit decode failed" :=
      runEntries_firstFail c a e rest _ (processEntry_decode_fail c a e hpath hdec) pre false hpre
    exact ⟨hrun, by simp [finalArchive, hrun]⟩
  · intro d hdec hjson henc
    have hrun : run c a (pre ++ e :: rest) = Except.error "crit encode failed" :=
      runEntries_firstFail c a e rest _
        (processEntry_encode_fail c a e d hpath hdec hjson henc) pre false hpre
    exact ⟨hrun, by simp [finalArchive, hrun]⟩

/-- External collaborators whose decode subprocess always exits
non-zero. -/
def extDecodeFail : Externals :=
  { extOk with decodeExitOk := fun _ => false }

/-- Witness for codec_failure_aborts on a concrete one-entry archive
whose decode invocation fails. -/
theorem codec_failure_aborts_witness :
    run extDecodeFail "10.1.1.9" [entryFiles] = Except.error "crit decode failed"
    ∧ finalArchive extDecodeFail "10.1.1.9" [entryFiles] = [entryFiles] := by
  exact (codec_failure_aborts extDecodeFail "10.1.1.9" [] entryFiles []
    (fun x hx => absurd hx (List.not_mem_nil x)) (by decide)).1 rfl
